import Mathlib

/-!
# Verification of the hyperfy real-time synchronization layer

Shallow embedding, in Lean 4, of the parts of the hyperfy repository that the
frozen claims are about:

* the packet codec (`writePacket` / `readPacket`, re-exported by
  `hypersdk/src/protocol/Packets.js`),
* the error buffer of `src/core/systems/ErrorMonitor.js` (`captureError`),
* the blueprint registry of `src/core/systems/Blueprints.js`
  (`modify`, `isBlueprintRelatedError`, `executeWithErrorMonitoring`),
* the websocket transport of `hypersdk/src/client/App.js`
  (`WebSocketManager`: `send`, `processQueue`, `disconnect`,
  `scheduleReconnect`, the `close` handler),
* the client mirror built from a snapshot (`HyperfyClient.handleSnapshot`
  together with `Player.js` / `App.js` entity subtypes).

Stateful JS methods are embedded as explicit state-passing functions; the
observable effects a claim needs (store writes, entity rebuilds, network
sends, scheduled timers) are returned as data next to the new state.
-/

namespace Hyperfy

/-! ## JSON payloads

A JSON-representable payload, as carried by every packet.  The msgpack
serialization used on the wire is an external library (`msgpackr`), not code
of this repository; payloads pass through the codec structurally. -/

inductive Json where
  | null
  | bool (b : Bool)
  | num (n : Int)
  | str (s : String)
  | arr (xs : List Json)
  | obj (kvs : List (String × Json))

/-! ## Packet codec (C1)

Modelled from the spec: `src/core/packets.js` is not under `src/` (only the
`Packets.js` re-export wrapper is).  The spec describes a WireCodec with
`encode(name, payload) -> frame` and `decode(frame) -> (name, payload)` that
is lossless for JSON-representable payloads, with the canonical packet names
of spec section 6; the codec maps a name to its numeric id in a fixed
registration table and back. -/

def packetNames : List String :=
  ["snapshot", "command", "chatAdded", "chatCleared", "entityAdded",
   "entityModified", "entityEvent", "entityRemoved", "blueprintAdded",
   "blueprintModified", "settingsModified", "errorReport", "mcpGetErrors",
   "mcpGetErrorStats", "mcpClearErrors", "mcpGetGltfErrors",
   "mcpSubscribeErrors", "mcpUnsubscribeErrors", "ping"]

/-- Modelled from the spec: encode a named packet as a frame holding the
name's id in the registration table plus the payload. -/
def writePacket (name : String) (data : Json) : Nat × Json :=
  (packetNames.indexOf name, data)

/-- Modelled from the spec: decode a frame back to `(name, payload)`; an id
with no registered name decodes to a null name rather than throwing. -/
def readPacket (frame : Nat × Json) : Option String × Json :=
  (packetNames.get? frame.1, frame.2)

/-! ## Error buffer (C2)

From `src/core/systems/ErrorMonitor.js`.  `captureError` builds an entry with
the next monotonic id, pushes it, and shifts the oldest entry off the front
when the buffer exceeds `maxErrors`.  Only the buffer-affecting part of
`captureError` is embedded; listener notification, MCP streaming and the
critical-error side channel do not touch the buffer. -/

structure ErrorEntry where
  id : Nat
  type : String
deriving DecidableEq

structure ErrorMonitorState where
  errors : List ErrorEntry
  errorId : Nat
  maxErrors : Nat
deriving DecidableEq

def initMonitor (maxErrors : Nat) : ErrorMonitorState :=
  { errors := [], errorId := 0, maxErrors := maxErrors }

def captureError (s : ErrorMonitorState) (type : String) : ErrorMonitorState :=
  let newId := s.errorId + 1
  let pushed := s.errors ++ [{ id := newId, type := type }]
  let trimmed := if s.maxErrors < pushed.length then pushed.tail else pushed
  { s with errors := trimmed, errorId := newId }

/-- A sequence of `n` capture calls, all with the same type tag. -/
def captureMany (s : ErrorMonitorState) : Nat → ErrorMonitorState
  | 0 => s
  | n + 1 => captureError (captureMany s n) "test"

def mkEntry (i : Nat) : ErrorEntry :=
  { id := i, type := "test" }

/-- `idRange a k` is the list `[a, a+1, ..., a+k-1]`: the ids expected to
survive in the buffer. -/
def idRange : Nat → Nat → List Nat
  | _, 0 => []
  | a, k + 1 => a :: idRange (a + 1) k

/-! ## Blueprint registry (C3, C4, C8)

From `src/core/systems/Blueprints.js`.  Blueprint records are JSON objects;
the embedding keeps the fields the claims are about (`id`, `version`,
`name`, `props`), and a modification request (`data`) carries the same
fields optionally, merged over the current record by object spread
`\x7b...blueprint, ...data\x7d`. -/

structure Blueprint where
  id : String
  version : Nat
  name : String
  props : List (String × String)
deriving DecidableEq

structure BlueprintPatch where
  id : String
  version? : Option Nat
  name? : Option String
  props? : Option (List (String × String))
deriving DecidableEq

/-- The merged candidate `\x7b...blueprint, ...data\x7d`: fields present in the
request overlay the current record. -/
def mergeBlueprint (bp : Blueprint) (d : BlueprintPatch) : Blueprint :=
  { id := d.id
    version := d.version?.getD bp.version
    name := d.name?.getD bp.name
    props := d.props?.getD bp.props }

/-- An entry of `world.entities.items` as `modify` sees it: its `data`
holds a blueprint reference and ephemeral `state`; `builds` counts the
`entity.build()` calls the embedding observed. -/
structure WEntity where
  id : String
  blueprint : Option String
  state : List (String × String)
  builds : Nat
deriving DecidableEq

structure BlueprintsState where
  items : List (String × Blueprint)
  entities : List WEntity
deriving DecidableEq

def lookupBp (items : List (String × Blueprint)) (id : String) : Option Blueprint :=
  (items.find? (fun p => p.1 == id)).map Prod.snd

/-- `this.items.set(id, bp)`: replace the record under an existing key, or
append a fresh binding. -/
def setBp (items : List (String × Blueprint)) (id : String) (bp : Blueprint) :
    List (String × Blueprint) :=
  if items.any (fun p => p.1 == id) then
    items.map (fun p => if p.1 == id then (id, bp) else p)
  else items ++ [(id, bp)]

/-- The rebuild loop of `modify`: every entity whose `data.blueprint` equals
the blueprint id has its state cleared and `build()` called. -/
def rebuildEntities (es : List WEntity) (bpId : String) : List WEntity :=
  es.map (fun e =>
    if e.blueprint == some bpId then
      { e with state := [], builds := e.builds + 1 }
    else e)

def rebuiltIds (es : List WEntity) (bpId : String) : List String :=
  (es.filter (fun e => e.blueprint == some bpId)).map WEntity.id

/-- Observable effects of one `modify` call: whether the store was written,
which entities were rebuilt, whether `network.send('blueprintModified', ...)`
and `emit('modify', ...)` fired. -/
structure ModifyEffects where
  wrote : Bool
  rebuilt : List String
  sent : Bool
  emitted : Bool
deriving DecidableEq

/-- `Blueprints.modify(data)`.  `none` models the `TypeError` thrown when the
blueprint id is unknown (`blueprint.id` on `undefined`).  Otherwise: compute
the merged candidate; if deep-equal (`isEqual`) to the current record, return
with no effects; else write the merged record, clear-and-rebuild every entity
referencing the blueprint, send and emit. -/
def modify (s : BlueprintsState) (d : BlueprintPatch) :
    Option (BlueprintsState × ModifyEffects) :=
  match lookupBp s.items d.id with
  | none => none
  | some bp =>
    let modified := mergeBlueprint bp d
    if modified = bp then
      some (s, { wrote := false, rebuilt := [], sent := false, emitted := false })
    else
      some ({ items := setBp s.items bp.id modified
              entities := rebuildEntities s.entities bp.id },
            { wrote := true, rebuilt := rebuiltIds s.entities bp.id
              sent := true, emitted := true })

/-! ## Error attribution (C4)

From `Blueprints.isBlueprintRelatedError` and
`Blueprints.executeWithErrorMonitoring`. -/

/-- An error record as the attribution window sees it. -/
structure BError where
  type : String
  args : List String
  stack : Option String
deriving DecidableEq

/-- JS `toLowerCase`, as a structurally evaluable map over the string's
characters. -/
def lowerStr (s : String) : String :=
  String.mk (s.data.map Char.toLower)

/-- `pat` occurs as a contiguous run of `hay`, checked at every start
position. -/
def charsContain (pat : List Char) : List Char → Bool
  | [] => pat.isEmpty
  | c :: t => pat.isPrefixOf (c :: t) || charsContain pat t

/-- `pat` occurs as a substring of `hay` (JS `String.prototype.includes`). -/
def containsSub (hay pat : String) : Bool :=
  charsContain pat.data hay.data

def explicitBlueprintErrors : List String :=
  ["app.script.load", "app.model.load", "app.script.compile",
   "app.script.runtime", "blueprint.validation", "gltfloader.error",
   "console.error", "console.warn"]

def errorPatterns (blueprintId : String) : List String :=
  ["gltfloader", "syntaxerror", "unexpected token", "json.parse",
   "failed to load", "failed to parse", "referenceerror", "typeerror",
   "cannot read", "is not defined", "is not a function", "model.load",
   "script.load", "asset loading", "three.js", "webgl", "shader",
   "texture", "geometry", "material", blueprintId]

/-- `Blueprints.isBlueprintRelatedError(error, blueprintId)`, kept with all
three branches of the source: the explicit type allow-list, the
message/stack pattern scan, and the final unconditional `return true`. -/
def isBlueprintRelatedError (error : BError) (blueprintId : String) : Bool :=
  if explicitBlueprintErrors.contains error.type then true
  else
    let errorMessage := lowerStr (String.intercalate " " error.args)
    let stack := lowerStr (error.stack.getD "")
    if (errorPatterns blueprintId).any
        (fun p => containsSub errorMessage p || containsSub stack p) then true
    else true

/-- The claim's classifier, following the spec's words: attributable only if
the type is in the allow-list, or the message/stack references the operation
id, or the engine is in a loose configuration mode. -/
def specAttributable (loose : Bool) (error : BError) (operationId : String) : Bool :=
  explicitBlueprintErrors.contains error.type
    || containsSub (lowerStr (String.intercalate " " error.args)) operationId
    || containsSub (lowerStr (error.stack.getD "")) operationId
    || loose

/-- An operation's result as `executeWithErrorMonitoring` returns it: the
`success` flag and the optional attached `errors` array of
`(type, message)` pairs. -/
structure OpResult where
  success : Bool
  errors : Option (List (String × String))
deriving DecidableEq

/-- `Blueprints.executeWithErrorMonitoring(blueprintId, operation)`, after
the correlation window: `newErrors` is the slice of the buffer past the
pre-call length.  If any of them pass the classifier, the operation's result
is returned with `success := false` and the attributed errors attached;
otherwise the operation's own result is returned untouched. -/
def executeWithErrorMonitoring (blueprintId : String) (result : OpResult)
    (newErrors : List BError) : OpResult :=
  if 0 < newErrors.length then
    let blueprintErrors :=
      newErrors.filter (fun e => isBlueprintRelatedError e blueprintId)
    if 0 < blueprintErrors.length then
      { result with
        success := false
        errors := some (blueprintErrors.map
          (fun e => (e.type, String.intercalate " " e.args))) }
    else result
  else result

/-! ## Transport: reconnect backoff (C5) and disconnect (C6)

From `WebSocketManager` in `hypersdk/src/client/App.js`.  `scheduleReconnect`
computes `delay = reconnectDelay * 2^reconnectAttempts`, then its timer
increments `reconnectAttempts` and retries `connect()`; on failure it either
schedules again (`shouldReconnect()`, i.e. `attempts < max`) or emits
`maxReconnectAttemptsReached`.  The `close` handler schedules the first
reconnect of a chain under the same `shouldReconnect()` test. -/

/-- The tail of a reconnect chain under persistently failing `connect()`:
control is inside a reconnect timer callback, `connect()` just failed and
`reconnectAttempts = a`.  Returns the list of backoff delays of every
`scheduleReconnect` call from here on, and how many times
`maxReconnectAttemptsReached` is emitted. -/
def afterFailedConnect (base max a : Nat) : List Nat × Nat :=
  if h : a < max then
    let rest := afterFailedConnect base max (a + 1)
    (base * 2 ^ a :: rest.1, rest.2)
  else ([], 1)
termination_by max - a
decreasing_by omega

/-- The `close` handler at `reconnectAttempts = a`, under persistently
failing reconnect attempts: schedules the first reconnect of the chain iff
`shouldReconnect()`; the handler itself never emits the terminal event. -/
def closeHandler (base max a : Nat) : List Nat × Nat :=
  if a < max then
    let rest := afterFailedConnect base max (a + 1)
    (base * 2 ^ a :: rest.1, rest.2)
  else ([], 0)

/-- The fields of `WebSocketManager` that `disconnect()` and the `close`
handler read or write. -/
structure WSState where
  connected : Bool
  reconnectAttempts : Nat
  maxReconnectAttempts : Nat
  heartbeatActive : Bool
deriving DecidableEq

/-- `WebSocketManager.disconnect()`: closes the socket, clears `connected`,
stops the heartbeat.  It sets no flag that the close was intentional. -/
def wsDisconnect (s : WSState) : WSState :=
  { s with connected := false, heartbeatActive := false }

/-- The socket `close` event handler: clears `connected`, stops the
heartbeat, and — when `shouldReconnect()` — calls `scheduleReconnect`,
returned here as `some delay` of the timer it sets. -/
def wsOnClose (s : WSState) (base : Nat) : WSState × Option Nat :=
  let s' := { s with connected := false, heartbeatActive := false }
  if s'.reconnectAttempts < s'.maxReconnectAttempts then
    (s', some (base * 2 ^ s'.reconnectAttempts))
  else (s', none)

/-- A fresh manager: connected, zero reconnect attempts, default
`maxReconnectAttempts = 5`, heartbeat running. -/
def wsFresh : WSState :=
  { connected := true, reconnectAttempts := 0, maxReconnectAttempts := 5
    heartbeatActive := true }

/-! ## Transport: send queue (C7, C10)

From `WebSocketManager.send` / `processQueue`.  `send` queues when the
connection is not OPEN and returns `false`; when OPEN it transmits and
returns `true`, or drops the message and returns `false` if the write
throws.  The `open` handler calls `processQueue`, which shifts and re-sends
queued messages until the queue is empty, before control returns to the
event loop. -/

structure QItem where
  packetName : String
  data : Json

structure TransportState where
  connected : Bool
  queue : List QItem
  transmitted : List QItem

/-- `WebSocketManager.send(packetName, data)`.  `transmitOk` stands for the
socket write not throwing.  Returns the new state and the boolean result. -/
def tmSend (s : TransportState) (m : QItem) (transmitOk : Bool) :
    TransportState × Bool :=
  if !s.connected then
    ({ s with queue := s.queue ++ [m] }, false)
  else if transmitOk then
    ({ s with transmitted := s.transmitted ++ [m] }, true)
  else (s, false)

/-- The `while` loop of `processQueue` on an OPEN connection: shift each
queued message and transmit it, in queue order. -/
def drainQueue (transmitted : List QItem) : List QItem → List QItem
  | [] => transmitted
  | m :: rest => drainQueue (transmitted ++ [m]) rest

/-- The `open` handler: set `connected`, then `processQueue` drains the
queue fully, synchronously, before any later send on the tick runs. -/
def tmOnOpen (s : TransportState) : TransportState :=
  { connected := true, queue := [], transmitted := drainQueue s.transmitted s.queue }

inductive TEvent where
  | sendReq (m : QItem)
  | opened

def tmStep (s : TransportState) : TEvent → TransportState
  | .sendReq m => (tmSend s m true).1
  | .opened => tmOnOpen s

def tmRun (s : TransportState) (evs : List TEvent) : TransportState :=
  evs.foldl tmStep s

def tmInit : TransportState :=
  { connected := false, queue := [], transmitted := [] }

/-! ## Client mirror: snapshot ingestion (C9)

`HyperfyClient.handleSnapshot` is not under `src/`; the ingestion below is
modelled from the spec (section 4.3: full replace of the entity and
blueprint maps through the one typed factory) and drives the `Player.js` /
`App.js` subtype constructors and methods, which are under `src/`. -/

/-- A blueprint record as the snapshot carries it. -/
structure ClientBlueprint where
  id : String
  name : String
  desc : String
deriving DecidableEq

/-- A raw entity record of a snapshot. -/
structure RawEntity where
  id : String
  type : String
  rank : Option Nat
  health : Option Nat
  blueprint : Option String
  pinned : Option Bool
  name : Option String
deriving DecidableEq

/-- Fields of `Player` set by the `Player.js` constructor that the claims
read: `rank = data.rank || 0`, `health = data.health || 100`. -/
structure PlayerE where
  id : String
  health : Nat
  rank : Nat
deriving DecidableEq

/-- Fields of `App` set by the `App.js` constructor that the claims read. -/
structure AppE where
  id : String
  blueprintId : Option String
  pinned : Bool
deriving DecidableEq

inductive ClientEntity where
  | player (p : PlayerE)
  | app (a : AppE)
  | generic (id : String)
deriving DecidableEq

/-- Modelled from the spec: the single typed entity factory shared by
snapshot ingestion and incremental adds, dispatching on the raw type tag and
layering the subtype constructors of `Player.js` / `App.js`. -/
def createEntity (r : RawEntity) : ClientEntity :=
  if r.type == "player" then
    .player { id := r.id, health := r.health.getD 100, rank := r.rank.getD 0 }
  else if r.type == "app" then
    .app { id := r.id, blueprintId := r.blueprint, pinned := r.pinned.getD false }
  else .generic r.id

structure Snapshot where
  entities : List RawEntity
  blueprints : List ClientBlueprint
deriving DecidableEq

structure ClientState where
  entities : List (String × ClientEntity)
  blueprints : List (String × ClientBlueprint)
deriving DecidableEq

/-- Modelled from the spec: `handleSnapshot` fully replaces both maps from
the snapshot arrays, constructing each entity through the factory. -/
def handleSnapshot (s : Snapshot) : ClientState :=
  { entities := s.entities.map (fun r => (r.id, createEntity r))
    blueprints := s.blueprints.map (fun b => (b.id, b)) }

def getPlayers (c : ClientState) : List PlayerE :=
  c.entities.filterMap (fun e =>
    match e.2 with
    | .player p => some p
    | _ => none)

def getApps (c : ClientState) : List AppE :=
  c.entities.filterMap (fun e =>
    match e.2 with
    | .app a => some a
    | _ => none)

def getClientBlueprint (c : ClientState) (id : String) : Option ClientBlueprint :=
  ((c.blueprints.find? (fun p => p.1 == id)).map Prod.snd)

/-- `Player.isAdmin()` from `Player.js`: `rank >= 2`. -/
def isAdmin (p : PlayerE) : Bool :=
  decide (2 ≤ p.rank)

/-- `App.getBlueprintName()` from `App.js`: the resolved blueprint's name,
or the `Unknown App` fallback. -/
def getBlueprintName (c : ClientState) (a : AppE) : String :=
  match a.blueprintId.bind (getClientBlueprint c) with
  | some bp => bp.name
  | none => "Unknown App"

/-- The concrete C9 scenario: one player of rank 2 and one app referencing
blueprint `bp-1` named `Test Blueprint`. -/
def c9snapshot : Snapshot :=
  { entities :=
      [{ id := "player-123", type := "player", rank := some 2,
         health := some 100, blueprint := none, pinned := none,
         name := some "TestBot" },
       { id := "app-1", type := "app", rank := none, health := none,
         blueprint := some "bp-1", pinned := some false, name := none }]
    blueprints :=
      [{ id := "bp-1", name := "Test Blueprint", desc := "A test blueprint" }] }

def c9client : ClientState :=
  handleSnapshot c9snapshot

/-! ## Concrete inputs for counterexamples (C3, C4, C6, C8) -/

def c3bp : Blueprint :=
  { id := "bp-1", version := 1, name := "alpha", props := [] }

def c3state : BlueprintsState :=
  { items := [("bp-1", c3bp)]
    entities := [{ id := "e1", blueprint := some "bp-1",
                   state := [("k", "v")], builds := 0 }] }

def c3patch : BlueprintPatch :=
  { id := "bp-1", version? := none, name? := some "beta", props? := none }

def c8bp : Blueprint :=
  { id := "bp-2", version := 5, name := "gamma", props := [] }

def c8state : BlueprintsState :=
  { items := [("bp-2", c8bp)], entities := [] }

def c8patch : BlueprintPatch :=
  { id := "bp-2", version? := some 1, name? := none, props? := none }

def c8okpatch : BlueprintPatch :=
  { id := "bp-2", version? := some 7, name? := none, props? := none }

def c4err : BError :=
  { type := "other.kind", args := ["boom happened"], stack := none }

end Hyperfy

namespace Hyperfy

theorem indexOf_get? {l : List String} {a : String} (h : a ∈ l) :
    l.get? (l.indexOf a) = some a := by
  induction l with
  | nil => cases h
  | cons b t ih =>
    rw [List.indexOf_cons]
    by_cases hb : b = a
    · subst hb
      simp
    · have hba : (b == a) = false := by
        simp [hb]
      rw [hba]
      simp only [cond_false, List.get?]
      rcases List.mem_cons.mp h with h1 | h2
      · exact absurd h1.symm hb
      · exact ih h2

theorem idRange_length (a k : Nat) : (idRange a k).length = k := by
  induction k generalizing a with
  | zero => rfl
  | succ k ih => simp [idRange, ih]

theorem idRange_concat (a k : Nat) : idRange a (k + 1) = idRange a k ++ [a + k] := by
  induction k generalizing a with
  | zero => simp [idRange]
  | succ k ih =>
    show a :: idRange (a + 1) (k + 1) = (a :: idRange (a + 1) k) ++ [a + (k + 1)]
    rw [ih (a + 1)]
    have harith : a + 1 + k = a + (k + 1) := by omega
    rw [harith]
    rfl

theorem mem_idRange {x a k : Nat} : x ∈ idRange a k ↔ a ≤ x ∧ x < a + k := by
  induction k generalizing a with
  | zero => simp [idRange]
  | succ k ih =>
    simp only [idRange, List.mem_cons, ih]
    omega

theorem idRange_get? (a : Nat) {k i : Nat} (h : i < k) :
    (idRange a k).get? i = some (a + i) := by
  induction k generalizing a i with
  | zero => omega
  | succ k ih =>
    cases i with
    | zero => simp [idRange]
    | succ i =>
      have hi : i < k := by omega
      simp only [idRange, List.get?]
      rw [ih (a + 1) hi]
      congr 1
      omega

theorem captureMany_errorId (max n : Nat) :
    (captureMany (initMonitor max) n).errorId = n := by
  induction n with
  | zero => rfl
  | succ n ih => simp [captureMany, captureError, ih]

theorem captureMany_maxErrors (max n : Nat) :
    (captureMany (initMonitor max) n).maxErrors = max := by
  induction n with
  | zero => rfl
  | succ n ih => simp [captureMany, captureError, ih]

theorem captureMany_errors_le (max n : Nat) (h : n ≤ max) :
    (captureMany (initMonitor max) n).errors = (idRange 1 n).map mkEntry := by
  induction n with
  | zero => rfl
  | succ n ih =>
    have hn : n ≤ max := Nat.le_of_succ_le h
    have hid := captureMany_errorId max n
    have hmax := captureMany_maxErrors max n
    simp only [captureMany, captureError, ih hn, hid, hmax]
    have hlen : (((idRange 1 n).map mkEntry) ++
        [({ id := n + 1, type := "test" } : ErrorEntry)]).length = n + 1 := by
      simp [idRange_length]
    rw [hlen]
    have hcond : ¬ max < n + 1 := by omega
    simp only [hcond, if_false]
    have : ({ id := n + 1, type := "test" } : ErrorEntry) = mkEntry (1 + n) := by
      simp [mkEntry]
      omega
    have hsing : [mkEntry (1 + n)] = List.map mkEntry [1 + n] := rfl
    rw [this, hsing, ← List.map_append, ← idRange_concat]

theorem captureMany_errors_ge (max n : Nat) (h : max ≤ n) :
    (captureMany (initMonitor max) n).errors =
      (idRange (n + 1 - max) max).map mkEntry := by
  induction n, h using Nat.le_induction with
  | base =>
    rw [captureMany_errors_le max max (Nat.le_refl max)]
    congr 1
    congr 1
    omega
  | succ n hmn ih =>
    have hid := captureMany_errorId max n
    have hmax := captureMany_maxErrors max n
    simp only [captureMany, captureError, ih, hid, hmax]
    have hlen : (((idRange (n + 1 - max) max).map mkEntry) ++
        [({ id := n + 1, type := "test" } : ErrorEntry)]).length = max + 1 := by
      simp [idRange_length]
    rw [hlen]
    have hcond : max < max + 1 := Nat.lt_succ_self max
    simp only [hcond, if_true]
    have hone : ({ id := n + 1, type := "test" } : ErrorEntry) =
        mkEntry ((n + 1 - max) + max) := by
      simp [mkEntry]
      omega
    have hsing : [mkEntry (n + 1 - max + max)] =
        List.map mkEntry [n + 1 - max + max] := rfl
    rw [hone, hsing, ← List.map_append, ← idRange_concat]
    have hsplit : idRange (n + 1 - max) (max + 1) =
        (n + 1 - max) :: idRange (n + 1 - max + 1) max := rfl
    rw [hsplit]
    simp only [List.map_cons, List.tail_cons]
    congr 2
    omega

theorem map_id_mkEntry (l : List Nat) :
    (l.map mkEntry).map ErrorEntry.id = l := by
  induction l with
  | nil => rfl
  | cons x t ih => simp [mkEntry, ih]

/-- C1: for every registered packet name and every JSON-representable
payload, decoding the frame produced by encoding the pair yields exactly the
original name and payload. -/
theorem c1_codec_roundtrip (name : String) (data : Json) (h : name ∈ packetNames) :
    readPacket (writePacket name data) = (some name, data) := by
  unfold readPacket writePacket
  rw [indexOf_get? h]

theorem c1_codec_roundtrip_witness :
    readPacket (writePacket "snapshot" Json.null) = (some "snapshot", Json.null) :=
  c1_codec_roundtrip "snapshot" Json.null (by decide)

/-- C2: the error buffer never holds more than `maxErrors` records after any
sequence of capture calls, and 501 sequential captures with `maxErrors = 500`
leave exactly 500 records: the lowest id 1 evicted, ids 2 through 501 all
present. -/
theorem c2_buffer_bound :
    (∀ max n, (captureMany (initMonitor max) n).errors.length ≤ max)
    ∧ (captureMany (initMonitor 500) 501).errors.length = 500
    ∧ (captureMany (initMonitor 500) 501).errors.map ErrorEntry.id = idRange 2 500
    ∧ (1 : Nat) ∉ (captureMany (initMonitor 500) 501).errors.map ErrorEntry.id
    ∧ ∀ i, 2 ≤ i → i ≤ 501 →
        i ∈ (captureMany (initMonitor 500) 501).errors.map ErrorEntry.id := by
  have hfull : (captureMany (initMonitor 500) 501).errors.map ErrorEntry.id =
      idRange 2 500 := by
    rw [captureMany_errors_ge 500 501 (by omega)]
    rw [map_id_mkEntry]
  refine ⟨?_, ?_, hfull, ?_, ?_⟩
  · intro max n
    rcases Nat.le_total n max with h | h
    · rw [captureMany_errors_le max n h]
      simp [idRange_length]
      omega
    · rw [captureMany_errors_ge max n h]
      simp [idRange_length]
  · have := congrArg List.length hfull
    simpa [idRange_length] using this
  · rw [hfull, mem_idRange]
    omega
  · intro i h2 h501
    rw [hfull, mem_idRange]
    omega

theorem c2_buffer_bound_witness :
    (2 : Nat) ∈ (captureMany (initMonitor 500) 501).errors.map ErrorEntry.id :=
  c2_buffer_bound.2.2.2.2 2 (by decide) (by decide)

theorem lookupBp_any {items : List (String × Blueprint)} {k : String}
    {bp : Blueprint} (h : lookupBp items k = some bp) :
    items.any (fun p => p.1 == k) = true := by
  unfold lookupBp at h
  cases hf : items.find? (fun p => p.1 == k) with
  | none => rw [hf] at h; cases h
  | some q =>
    have hpred := List.find?_some hf
    have hmem := List.mem_of_find?_eq_some hf
    exact List.any_eq_true.mpr ⟨q, hmem, hpred⟩

theorem find?_setBp_map {k : String} {v : Blueprint} :
    ∀ {items : List (String × Blueprint)},
    items.any (fun p => p.1 == k) = true →
    (items.map (fun p => if p.1 == k then (k, v) else p)).find?
      (fun p => p.1 == k) = some (k, v) := by
  intro items
  induction items with
  | nil => intro h; cases h
  | cons p t ih =>
    intro h
    by_cases hpk : (p.1 == k) = true
    · simp only [List.map_cons, hpk, if_true]
      rw [List.find?_cons_of_pos]
      simp
    · have hpk' : (p.1 == k) = false := by
        simpa using hpk
      have ht : t.any (fun p => p.1 == k) = true := by
        rw [List.any_cons, hpk'] at h
        simpa using h
      simp only [List.map_cons, hpk', if_false]
      rw [List.find?_cons_of_neg]
      · exact ih ht
      · simp [hpk']

theorem modify_eq_of_lookup {s : BlueprintsState} {d : BlueprintPatch}
    {bp : Blueprint} (hbp : lookupBp s.items d.id = some bp) :
    modify s d =
      if mergeBlueprint bp d = bp then
        some (s, { wrote := false, rebuilt := [], sent := false, emitted := false })
      else
        some ({ items := setBp s.items bp.id (mergeBlueprint bp d)
                entities := rebuildEntities s.entities bp.id },
              { wrote := true, rebuilt := rebuiltIds s.entities bp.id
                sent := true, emitted := true }) := by
  unfold modify
  rw [hbp]

theorem lookupBp_setBp {items : List (String × Blueprint)} {k : String}
    {bp : Blueprint} (h : lookupBp items k = some bp) (v : Blueprint) :
    lookupBp (setBp items k v) k = some v := by
  have hany := lookupBp_any h
  unfold setBp
  rw [if_pos hany]
  unfold lookupBp
  rw [find?_setBp_map hany]
  rfl

/-- C3 (amended): for a modification request on an existing blueprint, if
the merged candidate is deep-equal to the current record, nothing is
written, no entity is rebuilt and nothing is sent; otherwise the merged
record is written verbatim (the version is whatever the merge produced,
`modify` does not increment it), the notification is sent, and every entity
referencing the blueprint id has its ephemeral state cleared and is
rebuilt. -/
theorem c3_modify_noop_or_rebuild (s : BlueprintsState) (d : BlueprintPatch)
    (bp : Blueprint) (hbp : lookupBp s.items d.id = some bp)
    (hid : bp.id = d.id) :
    (mergeBlueprint bp d = bp →
      modify s d = some (s,
        { wrote := false, rebuilt := [], sent := false, emitted := false }))
    ∧ (mergeBlueprint bp d ≠ bp →
      modify s d = some
        ({ items := setBp s.items bp.id (mergeBlueprint bp d)
           entities := rebuildEntities s.entities bp.id },
         { wrote := true, rebuilt := rebuiltIds s.entities bp.id
           sent := true, emitted := true })
      ∧ lookupBp (setBp s.items bp.id (mergeBlueprint bp d)) bp.id =
          some (mergeBlueprint bp d)
      ∧ ∀ e ∈ rebuildEntities s.entities bp.id,
          e.blueprint = some bp.id → e.state = []) := by
  constructor
  · intro heq
    rw [modify_eq_of_lookup hbp, if_pos heq]
  · intro hne
    refine ⟨?_, ?_, ?_⟩
    · rw [modify_eq_of_lookup hbp, if_neg hne]
    · have : lookupBp s.items bp.id = some bp := by rw [hid]; exact hbp
      exact lookupBp_setBp this (mergeBlueprint bp d)
    · intro e he hbl
      unfold rebuildEntities at he
      rcases List.mem_map.mp he with ⟨x, _, hx⟩
      by_cases hcond : (x.blueprint == some bp.id) = true
      · rw [if_pos hcond] at hx
        rw [← hx]
      · rw [if_neg hcond] at hx
        subst hx
        exact absurd (by rw [hbl]; exact beq_self_eq_true _) hcond

theorem c3_modify_noop_or_rebuild_witness :
    modify c3state c3patch = some
      ({ items := setBp c3state.items c3bp.id (mergeBlueprint c3bp c3patch)
         entities := rebuildEntities c3state.entities c3bp.id },
       { wrote := true, rebuilt := rebuiltIds c3state.entities c3bp.id
         sent := true, emitted := true }) :=
  ((c3_modify_noop_or_rebuild c3state c3patch c3bp (by decide) (by decide)).2
    (by decide)).1

/-- C3 counterexample: a modification that changes the record does not bump
the version — the stored record keeps the version the merge produced (here
the old version 1, not 2). -/
theorem c3_version_not_bumped :
    c3bp.version = 1
    ∧ mergeBlueprint c3bp c3patch ≠ c3bp
    ∧ (modify c3state c3patch).map
        (fun r => (lookupBp r.1.items "bp-1").map Blueprint.version) =
      some (some 1) := by
  refine ⟨rfl, by decide, by decide⟩

/-- C8 (amended): a single `modify` step never decreases the stored version
provided the request's version, when present, is at least the current one;
`modify` itself writes the requested version verbatim and enforces nothing. -/
theorem c8_version_monotone (s : BlueprintsState) (d : BlueprintPatch)
    (bp : Blueprint) (hbp : lookupBp s.items d.id = some bp)
    (hid : bp.id = d.id)
    (hver : ∀ v, d.version? = some v → bp.version ≤ v) :
    ∀ s' eff, modify s d = some (s', eff) →
      ∃ bp', lookupBp s'.items bp.id = some bp' ∧ bp.version ≤ bp'.version := by
  intro s' eff h
  rw [modify_eq_of_lookup hbp] at h
  by_cases heq : mergeBlueprint bp d = bp
  · rw [if_pos heq] at h
    injection h with h'
    cases h'
    refine ⟨bp, ?_, Nat.le_refl _⟩
    rw [hid]
    exact hbp
  · rw [if_neg heq] at h
    injection h with h'
    cases h'
    refine ⟨mergeBlueprint bp d, ?_, ?_⟩
    · have : lookupBp s.items bp.id = some bp := by rw [hid]; exact hbp
      exact lookupBp_setBp this (mergeBlueprint bp d)
    · show bp.version ≤ d.version?.getD bp.version
      cases hv : d.version? with
      | none => simp
      | some v => simpa using hver v hv

theorem c8_version_monotone_witness :
    ∃ bp', lookupBp
        (setBp c8state.items c8bp.id (mergeBlueprint c8bp c8okpatch))
        c8bp.id = some bp' ∧ c8bp.version ≤ bp'.version :=
  c8_version_monotone c8state c8okpatch c8bp (by decide) (by decide)
    (by intro v hv; simp [c8okpatch] at hv; subst hv; decide)
    { items := setBp c8state.items c8bp.id (mergeBlueprint c8bp c8okpatch)
      entities := rebuildEntities c8state.entities c8bp.id }
    { wrote := true, rebuilt := rebuiltIds c8state.entities c8bp.id
      sent := true, emitted := true }
    (by decide)

/-- C8 counterexample: `modify` writes a strictly smaller requested version;
the stored version drops from 5 to 1. -/
theorem c8_version_decreases :
    c8bp.version = 5
    ∧ (modify c8state c8patch).map
        (fun r => (lookupBp r.1.items "bp-2").map Blueprint.version) =
      some (some 1) := by
  refine ⟨rfl, by decide⟩

theorem isBlueprintRelatedError_true (error : BError) (blueprintId : String) :
    isBlueprintRelatedError error blueprintId = true := by
  unfold isBlueprintRelatedError
  split
  · rfl
  · simp

/-- C4 counterexample: an error whose type is outside the allow-list, whose
message and stack never mention the operation id, is still attributed by the
code (the classifier's final branch returns true unconditionally), while the
claim's classifier — with no loose mode in force — rejects it. -/
theorem c4_overattribution :
    isBlueprintRelatedError c4err "bp-1" = true
    ∧ specAttributable false c4err "bp-1" = false := by
  exact ⟨isBlueprintRelatedError_true c4err "bp-1", by decide⟩

/-- C4 (amended): the classifier attributes every record unconditionally
(there is no loose-mode toggle); the correlation wrapper returns the
operation's result untouched when no record was captured in the window, and
otherwise returns it with `success := false` and all the window's records
attached — so with the operation's own `success = true`, the returned
`success` is true exactly when no error was attributed; it never throws. -/
theorem c4_correlation (blueprintId : String) :
    (∀ error, isBlueprintRelatedError error blueprintId = true)
    ∧ (∀ result, executeWithErrorMonitoring blueprintId result [] = result)
    ∧ (∀ (result : OpResult) e rest, result.success = true →
        (executeWithErrorMonitoring blueprintId result (e :: rest)).success = false
        ∧ (executeWithErrorMonitoring blueprintId result (e :: rest)).errors =
            some ((e :: rest).map
              (fun er => (er.type, String.intercalate " " er.args)))) := by
  refine ⟨fun error => isBlueprintRelatedError_true error blueprintId,
          fun result => rfl, ?_⟩
  intro result e rest _
  have hfil : (e :: rest).filter
      (fun er => isBlueprintRelatedError er blueprintId) = e :: rest :=
    List.filter_eq_self.mpr
      (fun a _ => isBlueprintRelatedError_true a blueprintId)
  unfold executeWithErrorMonitoring
  rw [hfil]
  simp

theorem c4_correlation_witness :
    (executeWithErrorMonitoring "bp-1"
      { success := true, errors := none } [c4err]).success = false :=
  ((c4_correlation "bp-1").2.2 { success := true, errors := none }
    c4err [] rfl).1

theorem afterFailedConnect_eq_aux (base max : Nat) : ∀ k a, max - a = k →
    afterFailedConnect base max a =
      ((idRange a (max - a)).map (fun n => base * 2 ^ n), 1) := by
  intro k
  induction k with
  | zero =>
    intro a hk
    have hna : ¬ a < max := by omega
    unfold afterFailedConnect
    rw [dif_neg hna, hk]
    simp [idRange]
  | succ k ih =>
    intro a hk
    have ha : a < max := by omega
    have hk1 : max - (a + 1) = k := by omega
    unfold afterFailedConnect
    rw [dif_pos ha, ih (a + 1) hk1, hk1]
    have hsplit : idRange a (max - a) = a :: idRange (a + 1) k := by
      rw [hk]
      rfl
    rw [hsplit]
    rfl

theorem afterFailedConnect_eq (base max a : Nat) :
    afterFailedConnect base max a =
      ((idRange a (max - a)).map (fun n => base * 2 ^ n), 1) :=
  afterFailedConnect_eq_aux base max (max - a) a rfl

/-- C5: after an unexpected close with `n` reconnect attempts made so far
and `n < max`, the chain under persistently failing connects schedules its
reconnects with delays `base * 2^0, ..., base * 2^(max-1)` — the n-th delay
is `base * 2^n`; exactly `max` reconnects are ever scheduled, and the
terminal exhausted notification fires exactly once. -/
theorem c5_backoff (base max : Nat) (hmax : 0 < max) :
    (∀ n, n < max →
      (closeHandler base max 0).1.get? n = some (base * 2 ^ n))
    ∧ (closeHandler base max 0).1.length = max
    ∧ (closeHandler base max 0).2 = 1 := by
  have h0 : closeHandler base max 0 =
      ((idRange 0 max).map (fun n => base * 2 ^ n), 1) := by
    unfold closeHandler
    rw [if_pos hmax, afterFailedConnect_eq]
    have hsplit : idRange 0 max = 0 :: idRange 1 (max - 1) := by
      cases max with
      | zero => omega
      | succ m => simp [idRange]
    rw [hsplit]
    rfl
  refine ⟨?_, ?_, ?_⟩
  · intro n hn
    rw [h0]
    simp only [List.get?_map]
    rw [idRange_get? 0 hn]
    simp
  · rw [h0]
    simp [idRange_length]
  · rw [h0]

theorem c5_backoff_witness :
    (closeHandler 1000 5 0).1.get? 2 = some 4000
    ∧ (closeHandler 1000 5 0).1.length = 5
    ∧ (closeHandler 1000 5 0).2 = 1 :=
  ⟨(c5_backoff 1000 5 (by decide)).1 2 (by decide),
   (c5_backoff 1000 5 (by decide)).2.1,
   (c5_backoff 1000 5 (by decide)).2.2⟩

/-- C6: after a graceful `disconnect()` the heartbeat is indeed cancelled,
but the resulting socket close event still schedules an automatic reconnect
(after `base * 2^0` ms): the close handler tests only
`reconnectAttempts < maxReconnectAttempts` and no flag records that the
close was intentional, contradicting the claimed suppression. -/
theorem c6_disconnect_still_reconnects :
    (wsDisconnect wsFresh).heartbeatActive = false
    ∧ (wsOnClose (wsDisconnect wsFresh) 1000).2 = some 1000 := by
  exact ⟨rfl, rfl⟩

theorem drainQueue_eq (q : List QItem) : ∀ t, drainQueue t q = t ++ q := by
  induction q with
  | nil => intro t; simp [drainQueue]
  | cons m rest ih =>
    intro t
    show drainQueue (t ++ [m]) rest = t ++ m :: rest
    rw [ih (t ++ [m])]
    simp

theorem tmRun_sends_closed (q : List QItem) : ∀ s : TransportState,
    s.connected = false →
    tmRun s (q.map TEvent.sendReq) = { s with queue := s.queue ++ q } := by
  induction q with
  | nil => intro s _; simp [tmRun]
  | cons m rest ih =>
    intro s h
    show tmRun (tmStep s (TEvent.sendReq m)) (rest.map TEvent.sendReq) = _
    have hstep : tmStep s (TEvent.sendReq m) = { s with queue := s.queue ++ [m] } := by
      simp [tmStep, tmSend, h]
    rw [hstep, ih { s with queue := s.queue ++ [m] } h]
    simp

theorem tmRun_sends_open (p : List QItem) : ∀ s : TransportState,
    s.connected = true →
    tmRun s (p.map TEvent.sendReq) = { s with transmitted := s.transmitted ++ p } := by
  induction p with
  | nil => intro s _; simp [tmRun]
  | cons m rest ih =>
    intro s h
    show tmRun (tmStep s (TEvent.sendReq m)) (rest.map TEvent.sendReq) = _
    have hstep : tmStep s (TEvent.sendReq m) =
        { s with transmitted := s.transmitted ++ [m] } := by
      simp [tmStep, tmSend, h]
    rw [hstep, ih { s with transmitted := s.transmitted ++ [m] } h]
    simp

/-- C7: every send issued while the connection is not OPEN is appended to
the FIFO queue, and once the connection opens the queued messages are
transmitted strictly in submission order, the queue draining fully before
any send issued after the open is dispatched. -/
theorem c7_fifo_flush (q p : List QItem) :
    tmRun tmInit (q.map TEvent.sendReq) =
      { connected := false, queue := q, transmitted := [] }
    ∧ (tmRun tmInit
        (q.map TEvent.sendReq ++ TEvent.opened :: p.map TEvent.sendReq)).transmitted
      = q ++ p := by
  have hq : tmRun tmInit (q.map TEvent.sendReq) =
      { connected := false, queue := q, transmitted := [] } := by
    rw [tmRun_sends_closed q tmInit rfl]
    rfl
  refine ⟨hq, ?_⟩
  unfold tmRun
  rw [List.foldl_append]
  show (tmRun (tmRun tmInit (q.map TEvent.sendReq))
    (TEvent.opened :: p.map TEvent.sendReq)).transmitted = q ++ p
  rw [hq]
  show (tmRun (tmOnOpen { connected := false, queue := q, transmitted := [] })
    (p.map TEvent.sendReq)).transmitted = q ++ p
  have hopen : tmOnOpen { connected := false, queue := q, transmitted := [] } =
      { connected := true, queue := [], transmitted := q } := by
    unfold tmOnOpen
    rw [drainQueue_eq]
    rfl
  rw [hopen, tmRun_sends_open p _ rfl]

/-- C10: `send` returns true exactly when the message was transmitted on an
OPEN connection; it returns false both when the message was queued for
replay (connection not OPEN) and when the write threw (message dropped), so
the boolean alone cannot distinguish a queued message from a dropped one. -/
theorem c10_send_result (s : TransportState) (m : QItem) (ok : Bool) :
    ((tmSend s m ok).2 = true ↔
      s.connected = true ∧ (tmSend s m ok).1.transmitted = s.transmitted ++ [m])
    ∧ (s.connected = false →
        (tmSend s m ok).2 = false ∧ (tmSend s m ok).1.queue = s.queue ++ [m])
    ∧ (s.connected = true → ok = false →
        (tmSend s m ok).2 = false ∧ (tmSend s m ok).1 = s) := by
  refine ⟨?_, ?_, ?_⟩
  · cases hc : s.connected with
    | false =>
      simp only [tmSend, hc, Bool.not_false, if_true]
      constructor
      · intro h; cases h
      · intro ⟨h, _⟩; cases h
    | true =>
      cases ok with
      | true =>
        simp [tmSend, hc]
      | false =>
        simp only [tmSend, hc, Bool.not_true, if_false]
        constructor
        · intro h; cases h
        · intro ⟨_, h⟩
          exact absurd h (by simp)
  · intro hc
    simp [tmSend, hc]
  · intro hc hok
    subst hok
    simp [tmSend, hc]

theorem c10_send_result_witness :
    (tmSend tmInit { packetName := "chatAdded", data := Json.null } true).2 = false
    ∧ (tmSend tmInit { packetName := "chatAdded", data := Json.null } true).1.queue
      = tmInit.queue ++ [{ packetName := "chatAdded", data := Json.null }] :=
  (c10_send_result tmInit { packetName := "chatAdded", data := Json.null } true).2.1 rfl

/-- C9: applying the snapshot holding exactly one player of rank 2 and one
app referencing blueprint `bp-1` named `Test Blueprint` yields one player,
one app, an admin player, and the app's resolved blueprint name
`Test Blueprint`. -/
theorem c9_snapshot_scenario :
    (getPlayers c9client).length = 1
    ∧ (getApps c9client).length = 1
    ∧ (getPlayers c9client).map isAdmin = [true]
    ∧ (getApps c9client).map (getBlueprintName c9client) = ["Test Blueprint"] := by
  refine ⟨rfl, rfl, rfl, ?_⟩
  decide

end Hyperfy
